import Mathlib

/-
  Verification of the Travecto browser client (src/static/script.js).

  The script file contains two variants of the client separated by a marker:
  a full variant (theme, persistence, share, restoreForm, day-selector gating)
  and a reduced variant (ungated day selector, no persistence).  Both are
  embedded below; the two updateView versions are kept apart as
  updateView_gated and updateView_ungated.

  Modelling conventions:
  * JS strings are lists of characters (Str).  String.prototype.trim is
    modelled over the ASCII whitespace characters.
  * JS objects used as string-keyed maps (the mandatory map, the
    alt-address map, localStorage, URLSearchParams) are modelled as
    insertion-ordered association lists whose set operation overwrites in
    place, which matches lookup/overwrite semantics.
  * DOM state touched by the script is an explicit UIState record; a
    function that can throw a TypeError returns a Bool flag (true = threw),
    keeping the mutations that happened before the throw.
  * JS numbers carried by the plan response (distance_m, time_minutes, day)
    are modelled as naturals; toFixed(1) of distance_m / 1000 is modelled as
    exact decimal rounding (half up), which agrees with the IEEE double
    computation except on representation-dependent .05 ties.
-/

namespace Travecto

/-- JS strings, modelled as lists of characters. -/
abbrev Str := List Char

/-- Embed a Lean string literal into the model. -/
def strOf (s : String) : Str := s.data

/-- ASCII whitespace as trimmed by String.prototype.trim. -/
def isWs (c : Char) : Bool :=
  c = ' ' || c = '\t' || c = '\n' || c = '\r' || c = '\x0b' || c = '\x0c'

/-- String.prototype.trim: drop whitespace from both ends. -/
def trim (s : Str) : Str :=
  ((s.dropWhile isWs).reverse.dropWhile isWs).reverse

/-- String.prototype.split with a one-character separator. -/
def splitOnChar (sep : Char) : Str → List Str
  | [] => [[]]
  | c :: cs =>
    let r := splitOnChar sep cs
    if c = sep then [] :: r
    else
      match r with
      | [] => [[c]]
      | h :: t => (c :: h) :: t

/-- split on the line-break regex: a newline optionally preceded by a
carriage return. -/
def splitLines (s : Str) : List Str :=
  (splitOnChar '\n' s).map fun l =>
    if l.getLast? = some '\r' then l.dropLast else l

/-- The shared preprocessing of every multi-line text area in plan():
split into lines, trim each, drop the ones that are empty (falsy). -/
def survivingLines (raw : Str) : List Str :=
  ((splitLines raw).map trim).filter fun l => !l.isEmpty

/-- Association lists standing in for JS string-keyed objects. -/
abbrev KV := List (Str × Str)

/-- First-match lookup (object property read / URLSearchParams.get /
localStorage.getItem). -/
def lookupKV {β : Type} : List (Str × β) → Str → Option β
  | [], _ => none
  | p :: rest, k => if p.1 = k then some p.2 else lookupKV rest k

/-- Overwriting insert (object property write / localStorage.setItem):
replaces the value in place when the key exists, appends otherwise. -/
def setKV {β : Type} : List (Str × β) → Str → β → List (Str × β)
  | [], k, v => [(k, v)]
  | p :: rest, k, v => if p.1 = k then (k, v) :: rest else p :: setKV rest k v

/-- The push into `mandatory[day]` with `??= []`: append to the list under
the key, creating it on first use. -/
def appendKV : List (Str × List Str) → Str → Str → List (Str × List Str)
  | [], k, v => [(k, [v])]
  | p :: rest, k, v =>
    if p.1 = k then (p.1, p.2 ++ [v]) :: rest else p :: appendKV rest k v

/-- plan(): the places text area becomes the trimmed non-empty lines. -/
def parsePlaces (raw : Str) : List Str := survivingLines raw

/-- plan(): one line of the mandatory text area.
`const [day, places] = mandatoryLine.split('|')` binds the first two
segments of the split (later segments are discarded); the line is skipped
when day is empty or the second segment is missing or empty; the places
segment is comma-split, tokens trimmed, empty tokens dropped, survivors
pushed under the day key taken verbatim (not trimmed). -/
def processMandatoryLine (m : List (Str × List Str)) (line : Str) :
    List (Str × List Str) :=
  let parts := splitOnChar '|' line
  let day := parts.headI
  match parts[1]? with
  | none => m
  | some ps =>
    if day.isEmpty || ps.isEmpty then m
    else
      (splitOnChar ',' ps).foldl
        (fun acc place =>
          if (trim place).isEmpty then acc else appendKV acc day (trim place)) m

/-- plan(): the whole mandatory text area. -/
def parseMandatory (raw : Str) : List (Str × List Str) :=
  (survivingLines raw).foldl processMandatoryLine []

/-- plan(): one line of the altAddresses text area.
`const [original, ...replacement] = line.split('|')`; skipped when the
first segment is empty; otherwise the trimmed first segment maps to the
remaining segments rejoined with the bar and trimmed. -/
def processAltLine (m : KV) (line : Str) : KV :=
  let parts := splitOnChar '|' line
  let original := parts.headI
  let replacement := List.intercalate ['|'] parts.tail
  if original.isEmpty then m else setKV m (trim original) (trim replacement)

/-- plan(): the whole altAddresses text area. -/
def parseAltAddresses (raw : Str) : KV :=
  (survivingLines raw).foldl processAltLine []

/-- plan(): the request payload's config object. -/
structure PlanConfig where
  home : Option Str
  places : List Str
  mandatory_by_day : List (Str × List Str)
  alt_addresses : KV
  mode : Str
deriving DecidableEq

/-- plan(): the wire payload, with its fixed city discriminator. -/
structure PlanPayload where
  city_name : Str
  config : PlanConfig
deriving DecidableEq

/-- plan(): payload assembly from the raw field values
(home is trimmed, and an empty home is sent as null). -/
def buildPayload (home places mandatory altAddresses mode : Str) : PlanPayload :=
  { city_name := strOf "custom"
    config :=
      { home := if (trim home).isEmpty then none else some (trim home)
        places := parsePlaces places
        mandatory_by_day := parseMandatory mandatory
        alt_addresses := parseAltAddresses altAddresses
        mode := mode } }

/-- One route of the plan response. -/
structure RouteInfo where
  day : Option Nat
  places : List Str
  distance_m : Nat
  time_minutes : Nat
  map_path : Str
deriving DecidableEq

/-- The plan response held in the lastPlan slot. -/
structure PlanResponse where
  routes : List RouteInfo
deriving DecidableEq

/-- Decimal rendering of a natural (JS number-to-string on the values the
script interpolates). -/
def natRepr (n : Nat) : Str := (Nat.repr n).data

/-- JS truthiness of the optional day field: absent and 0 are falsy. -/
def dayTruthy : Option Nat → Bool
  | none => false
  | some n => n != 0

/-- The label used twice in the script: Day N when the day field is
truthy, the generic Route label otherwise. -/
def dayLabel (d : Option Nat) : Str :=
  if dayTruthy d then strOf "Day " ++ natRepr (d.getD 0) else strOf "Route"

/-- populateDays: one option per route, value = route index,
label = Day N or Route. -/
def populateDays (resp : PlanResponse) : List (Nat × Str) :=
  resp.routes.enum.map fun p => (p.1, dayLabel p.2.day)

/-- (distance_m / 1000).toFixed(1): one-decimal kilometre rendering,
modelled as exact half-up decimal rounding of the rational distance_m/1000
(the IEEE double computation agrees except on representation-dependent
.05 ties, which no claim exercises). -/
def kmStr (d : Nat) : Str :=
  let t := (d + 50) / 100
  natRepr (t / 10) ++ strOf "." ++ natRepr (t % 10)

/-- One rendered block of the list view. -/
structure ListBlock where
  heading : Str
  items : List Str
  summary : Str
deriving DecidableEq

/-- renderList: the block built for one route by the template literal. -/
def renderBlock (info : RouteInfo) : ListBlock :=
  { heading := dayLabel info.day
    items := info.places
    summary :=
      kmStr info.distance_m ++ strOf " km | " ++
        natRepr info.time_minutes ++ strOf " min" }

/-- renderList: clear the list region and emit one block per route in
route order. -/
def renderList (resp : PlanResponse) : List ListBlock :=
  resp.routes.map renderBlock

/-- The DOM state the script reads and writes. -/
structure UIState where
  view : Str
  dayValue : Nat
  listHidden : Bool
  mapHidden : Bool
  dayHidden : Bool
  listContent : List ListBlock
  mapFrameSrc : Str
  dayOptions : List (Nat × Str)
deriving DecidableEq

/-- showMap: sets the map frame source to lastPlan.routes[idx].map_path.
The dereference is unguarded: with a null lastPlan or an out-of-range
index it throws a TypeError (flag true) and leaves the state untouched. -/
def showMap (lastPlan : Option PlanResponse) (idx : Nat) (st : UIState) :
    UIState × Bool :=
  match lastPlan with
  | none => (st, true)
  | some resp =>
    match resp.routes[idx]? with
    | some info => ({ st with mapFrameSrc := info.map_path }, false)
    | none => (st, true)

/-- updateView, full-variant (script.js lines 36-50).  Note the order in
the source: `const mandatory = lastPlan.routes.some(...)` runs BEFORE the
`if (!lastPlan) return;` guard, so with a null lastPlan the function
throws a TypeError before any visibility toggle happens. -/
def updateView_gated (lastPlan : Option PlanResponse) (st : UIState) :
    UIState × Bool :=
  match lastPlan with
  | none => (st, true)
  | some resp =>
    let mandatory := resp.routes.any fun r => r.day.isSome
    let st1 : UIState :=
      { st with
          listHidden := st.view != strOf "list"
          mapHidden := st.view != strOf "map"
          dayHidden := !(st.view == strOf "map" && mandatory) }
    if st.view == strOf "list" then
      ({ st1 with listContent := renderList resp }, false)
    else showMap (some resp) (if mandatory then st1.dayValue else 0) st1

/-- updateView, reduced-variant (script.js lines 239-252): visibility
toggles happen first, then the null-lastPlan guard returns early, so a
missing plan is a no-op after the toggles. -/
def updateView_ungated (lastPlan : Option PlanResponse) (st : UIState) :
    UIState × Bool :=
  let st1 : UIState :=
    { st with
        listHidden := st.view != strOf "list"
        mapHidden := st.view != strOf "map"
        dayHidden := st.view != strOf "map" }
  match lastPlan with
  | none => (st1, false)
  | some resp =>
    if st.view == strOf "list" then
      ({ st1 with listContent := renderList resp }, false)
    else showMap (some resp) st1.dayValue st1

/-- Outcome of one network round of plan(). -/
inductive FetchResult where
  | success (body : PlanResponse)
  | httpError (text : Str)
  | networkError (msg : Str)
deriving DecidableEq

/-- Observable result of plan(): ok, a caught failure with its alert
text and the preserved lastPlan slot, or a rendering throw caught by the
same catch block (its alert text is runtime-generated and not modelled). -/
inductive PlanOutcome where
  | ok (lastPlan : PlanResponse) (ui : UIState)
  | failed (alertMsg : Str) (lastPlan : Option PlanResponse) (ui : UIState)
  | failedRender (lastPlan : Option PlanResponse) (ui : UIState)
deriving DecidableEq

def outcomeLastPlan : PlanOutcome → Option PlanResponse
  | .ok p _ => some p
  | .failed _ lp _ => lp
  | .failedRender lp _ => lp

def outcomeAlert : PlanOutcome → Option Str
  | .ok _ _ => none
  | .failed msg _ _ => some msg
  | .failedRender _ _ => none

/-- plan() clears the list region and the map frame before the call. -/
def clearViews (st : UIState) : UIState :=
  { st with listContent := [], mapFrameSrc := [] }

/-- plan(), full variant: clear the display areas, perform the call; on a
non-ok response throw the body text, and alert any caught error as
'Planning failed: ' plus its message, leaving lastPlan as it was; on
success replace lastPlan, repopulate the day selector, reset it to 0 and
re-render through updateView_gated. -/
def plan (prior : Option PlanResponse) (st : UIState) (r : FetchResult) :
    PlanOutcome :=
  let st1 := clearViews st
  match r with
  | .httpError t => .failed (strOf "Planning failed: " ++ t) prior st1
  | .networkError m => .failed (strOf "Planning failed: " ++ m) prior st1
  | .success body =>
    let st2 := { st1 with dayOptions := populateDays body, dayValue := 0 }
    match updateView_gated (some body) st2 with
    | (st3, false) => .ok body st3
    | (st3, true) => .failedRender (some body) st3

/-- The six tracked form fields. -/
structure FormState where
  home : Str
  places : Str
  mandatory : Str
  altAddresses : Str
  mode : Str
  view : Str
deriving DecidableEq

/-- restoreForm's inner setValue for one field: a present URL parameter
is used and written to storage (marking hadParams); otherwise a stored
value is used; otherwise the field keeps its current markup value. -/
def setValueStep (params : KV) (id cur : Str) (acc : KV × Bool) :
    Str × KV × Bool :=
  match lookupKV params id with
  | some v => (v, setKV acc.1 id v, true)
  | none =>
    match lookupKV acc.1 id with
    | some v => (v, acc.1, acc.2)
    | none => (cur, acc.1, acc.2)

/-- restoreForm: resolve the six tracked fields in source order, threading
the storage writes; returns the resolved form, the final storage and the
hadParams flag.  (The source then applies the theme, calls updateView -
settled separately - and strips the URL query when hadParams is set.) -/
def restoreForm (params storage : KV) (f : FormState) :
    FormState × KV × Bool :=
  let r1 := setValueStep params (strOf "home") f.home (storage, false)
  let r2 := setValueStep params (strOf "places") f.places r1.2
  let r3 := setValueStep params (strOf "mandatory") f.mandatory r2.2
  let r4 := setValueStep params (strOf "altAddresses") f.altAddresses r3.2
  let r5 := setValueStep params (strOf "mode") f.mode r4.2
  let r6 := setValueStep params (strOf "view") f.view r5.2
  ({ home := r1.1, places := r2.1, mandatory := r3.1,
     altAddresses := r4.1, mode := r5.1, view := r6.1 }, r6.2)

/-- share: write the six tracked fields onto the URL's search parameters
(home is trimmed, the other five are sent raw). -/
def share (params0 : KV) (f : FormState) : KV :=
  setKV (setKV (setKV (setKV (setKV (setKV params0
    (strOf "home") (trim f.home))
    (strOf "places") f.places)
    (strOf "mandatory") f.mandatory)
    (strOf "altAddresses") f.altAddresses)
    (strOf "mode") f.mode)
    (strOf "view") f.view

/-
  Reference definitions written from the spec's words, for the refinement
  claims: each is compared against the corresponding definition embedded
  from the source above.
-/

/-- Split once on the first occurrence of the separator; none when the
separator does not occur. -/
def splitFirst (sep : Char) : Str → Option (Str × Str)
  | [] => none
  | c :: cs =>
    if c = sep then some ([], cs)
    else (splitFirst sep cs).map fun p => (c :: p.1, p.2)

/-- Reference rule of claim C3, following the spec's words: split once on
the FIRST bar into day and placesPart (placesPart keeps any later bars);
skip when either side is empty or the bar is missing; comma-split
placesPart, trim tokens, drop empty ones, append under the day key. -/
def mandatorySpecLine (m : List (Str × List Str)) (line : Str) :
    List (Str × List Str) :=
  match splitFirst '|' line with
  | none => m
  | some (day, placesPart) =>
    if day.isEmpty || placesPart.isEmpty then m
    else
      (((splitOnChar ',' placesPart).map trim).filter fun t => !t.isEmpty).foldl
        (fun acc t => appendKV acc day t) m

/-- Reference mandatory-by-day parse of claim C3, as the claim states it. -/
def mandatoryByDaySpecRef (raw : Str) : List (Str × List Str) :=
  (survivingLines raw).foldl mandatorySpecLine []

/-- Amended reference rule for C3: split on the bar and keep only the
first two segments as day and placesPart, discarding later segments. -/
def mandatoryAmendedLine (m : List (Str × List Str)) (line : Str) :
    List (Str × List Str) :=
  match splitOnChar '|' line with
  | day :: placesPart :: _ =>
    if day.isEmpty || placesPart.isEmpty then m
    else
      (((splitOnChar ',' placesPart).map trim).filter fun t => !t.isEmpty).foldl
        (fun acc t => appendKV acc day t) m
  | _ => m

/-- Amended reference mandatory-by-day parse for C3. -/
def mandatoryByDayAmendedRef (raw : Str) : List (Str × List Str) :=
  (survivingLines raw).foldl mandatoryAmendedLine []

/-- Reference resolution rule of claim C6, following the spec's words: a
present URL parameter wins, else a stored value, else the markup value. -/
def resolveFieldSpec (params storage : KV) (id cur : Str) : Str :=
  match lookupKV params id with
  | some v => v
  | none => (lookupKV storage id).getD cur

/-- Reference heading rule of claim C8, following the spec's words: Day N
when a day number is present, the generic Route label otherwise (the
spec's data model marks a day as absent when the field is absent or
falsy, so a zero day is an unassigned route). -/
def headingSpecRef : Option Nat → Str
  | some n => if n = 0 then strOf "Route" else strOf "Day " ++ natRepr n
  | none => strOf "Route"

/-- Reference block of claim C8: heading per the day rule, the route's
place names in order, and the km (one decimal) / minutes summary. -/
def blockSpecRef (info : RouteInfo) : ListBlock :=
  { heading := headingSpecRef info.day
    items := info.places
    summary :=
      kmStr info.distance_m ++ strOf " km | " ++
        natRepr info.time_minutes ++ strOf " min" }

/-- Reference list rendering of claim C8: one block per route, in route
order. -/
def renderListSpecRef : List RouteInfo → List ListBlock
  | [] => []
  | info :: rest => blockSpecRef info :: renderListSpecRef rest

/-
  Concrete inputs used by counterexamples and witnesses.
-/

/-- A DOM state in list view (the markup default). -/
def uiL : UIState :=
  { view := strOf "list", dayValue := 0, listHidden := false
    mapHidden := true, dayHidden := true, listContent := []
    mapFrameSrc := [], dayOptions := [] }

/-- A DOM state in map view. -/
def uiM : UIState :=
  { uiL with view := strOf "map" }

/-- A form whose home field carries a trailing space. -/
def fEx : FormState :=
  { home := strOf "X ", places := strOf "P1\nP2", mandatory := strOf "1|A"
    altAddresses := strOf "A|B", mode := strOf "walk", view := strOf "list" }

/-- The markup-default form (all fields empty). -/
def fDef : FormState :=
  { home := [], places := [], mandatory := [], altAddresses := []
    mode := [], view := [] }

/-- The spec's two-route example response. -/
def respEx : PlanResponse :=
  ⟨[{ day := some 1, places := [strOf "A", strOf "B"], distance_m := 12345
      time_minutes := 30, map_path := strOf "m1" },
    { day := some 2, places := [strOf "C"], distance_m := 500
      time_minutes := 7, map_path := strOf "m2" }]⟩

/-
  General lemmas about the map and split helpers.
-/

theorem lookup_setKV {β : Type} (m : List (Str × β)) (k : Str) (v : β)
    (k' : Str) :
    lookupKV (setKV m k v) k' = if k = k' then some v else lookupKV m k' := by
  induction m with
  | nil => simp [setKV, lookupKV]
  | cons p rest ih =>
    by_cases h : p.1 = k <;> by_cases h2 : k = k' <;>
      simp [setKV, lookupKV, h, h2, ih]
    subst h2
    simp [setKV, lookupKV, h, ih]

theorem lookup_setKV_eq {β : Type} (m : List (Str × β)) (k : Str) (v : β) :
    lookupKV (setKV m k v) k = some v := by
  rw [lookup_setKV, if_pos rfl]

theorem lookup_setKV_ne {β : Type} (m : List (Str × β)) (k : Str) (v : β)
    (k' : Str) (h : k ≠ k') :
    lookupKV (setKV m k v) k' = lookupKV m k' := by
  rw [lookup_setKV, if_neg h]

theorem splitOnChar_ne_nil (sep : Char) (l : Str) : splitOnChar sep l ≠ [] := by
  cases l with
  | nil => simp [splitOnChar]
  | cons c cs =>
    by_cases h : c = sep
    · simp [splitOnChar, h]
    · rcases hr : splitOnChar sep cs with _ | ⟨h2, t2⟩ <;>
        simp [splitOnChar, h, hr]

/-- C1: the claim says updateView is a safe no-op when no last plan is
present.  On the full variant it instead throws (the mandatory
computation dereferences lastPlan.routes before the null guard, so not
even the visibility toggles run); on the reduced variant it completes as
a no-op after updating region visibility, as the spec intends.  The
theorem evaluates both variants at the failing input. -/
theorem C1_noop_violation :
    (updateView_gated none uiL).2 = true ∧
    updateView_ungated none uiL =
      ({ uiL with listHidden := false, mapHidden := true, dayHidden := true },
        false) := by
  constructor
  · rfl
  · decide

/-- C4 counterexample: on an HTTP failure whose body is "bad address",
the user-visible alert text is "Planning failed: bad address", which is
not exactly the body text, refuting the claim's exact-message part. -/
theorem C4_counterexample :
    outcomeAlert (plan none uiL (.httpError (strOf "bad address"))) =
      some (strOf "Planning failed: bad address") ∧
    outcomeAlert (plan none uiL (.httpError (strOf "bad address"))) ≠
      some (strOf "bad address") := by
  decide

/-- C4 (amended): on an HTTP failure with body M, the alert text is the
fixed prefix "Planning failed: " followed by exactly M, the lastPlan slot
is left unchanged (not cleared, not replaced), and the UI keeps its
pre-call state except for the display areas cleared before the call. -/
theorem C4_amended (prior : Option PlanResponse) (st : UIState) (t : Str) :
    plan prior st (.httpError t) =
      .failed (strOf "Planning failed: " ++ t) prior (clearViews st) := rfl

/-- C3 counterexample: on the claim's own example line "1|A,B|C" the code
keeps only the first two bar-segments (placesPart "A,B"), while the
claim's first-bar reference rule keeps "A,B|C"; the two parses differ. -/
theorem C3_counterexample :
    parseMandatory (strOf "1|A,B|C") = [(strOf "1", [strOf "A", strOf "B"])] ∧
    mandatoryByDaySpecRef (strOf "1|A,B|C") =
      [(strOf "1", [strOf "A", strOf "B|C"])] ∧
    parseMandatory (strOf "1|A,B|C") ≠
      mandatoryByDaySpecRef (strOf "1|A,B|C") := by
  decide

theorem foldl_trim_filter (day : Str) (L : List Str) :
    ∀ m : List (Str × List Str),
      L.foldl (fun acc place =>
        if (trim place).isEmpty then acc
        else appendKV acc day (trim place)) m =
      ((L.map trim).filter fun t => !t.isEmpty).foldl
        (fun acc t => appendKV acc day t) m := by
  induction L with
  | nil => intro m; rfl
  | cons a t ih =>
    intro m
    simp only [List.foldl_cons, List.map_cons, List.filter_cons]
    by_cases h : (trim a).isEmpty
    · rw [if_pos h, ih]
      simp [h]
    · rw [if_neg h, ih]
      simp [h]

theorem mandatory_line_eq (m : List (Str × List Str)) (line : Str) :
    processMandatoryLine m line = mandatoryAmendedLine m line := by
  rcases hp : splitOnChar '|' line with _ | ⟨d, rest⟩
  · exact absurd hp (splitOnChar_ne_nil '|' line)
  · rcases rest with _ | ⟨ps, t2⟩
    · simp [processMandatoryLine, mandatoryAmendedLine, hp]
    · simp only [processMandatoryLine, mandatoryAmendedLine, hp,
        List.headI, List.getElem?_cons_succ, List.getElem?_cons_zero]
      by_cases hd : d.isEmpty || ps.isEmpty
      · rw [if_pos hd, if_pos hd]
      · rw [if_neg hd, if_neg hd]
        exact foldl_trim_filter d (splitOnChar ',' ps) m

theorem foldl_congr_fun {α β : Type} (f g : β → α → β)
    (h : ∀ b a, f b a = g b a) :
    ∀ (l : List α) (i : β), l.foldl f i = l.foldl g i := by
  intro l
  induction l with
  | nil => intro i; rfl
  | cons a t ih =>
    intro i
    rw [List.foldl_cons, List.foldl_cons, h, ih]

/-- C3 (amended): the mandatory-by-day parse equals the amended reference
rule: each surviving line is bar-split and only the first two segments
are kept as day and placesPart (so "1|A,B|C" has placesPart "A,B" and the
trailing segment is discarded); lines with an empty or missing side are
skipped; placesPart is comma-split, tokens trimmed, empty tokens dropped,
survivors appended under the day key in order of first use. -/
theorem C3_amended (raw : Str) :
    parseMandatory raw = mandatoryByDayAmendedRef raw := by
  unfold parseMandatory mandatoryByDayAmendedRef
  exact foldl_congr_fun _ _ mandatory_line_eq _ _

/-- C7: alt-address parsing: "A|B|C" maps A to "B|C" (later segments
rejoined with the bar and trimmed); a bare "A" registers A with the empty
replacement; "|B" (empty original) contributes no entry; and a duplicate
original key is overwritten by the last occurrence (shown on a concrete
duplicate and by the general overwrite law of the map update). -/
theorem C7_alt_examples (m : KV) (k v : Str) :
    lookupKV (parseAltAddresses (strOf "A|B|C")) (strOf "A") =
      some (strOf "B|C") ∧
    lookupKV (parseAltAddresses (strOf "A")) (strOf "A") = some [] ∧
    parseAltAddresses (strOf "|B") = [] ∧
    lookupKV (parseAltAddresses (strOf "A|B\nA|C")) (strOf "A") =
      some (strOf "C") ∧
    lookupKV (setKV m k v) k = some v := by
  exact ⟨by decide, by decide, by decide, by decide, lookup_setKV_eq m k v⟩

theorem showMap_dayHidden (lp : Option PlanResponse) (idx : Nat)
    (st : UIState) : ((showMap lp idx st).1).dayHidden = st.dayHidden := by
  rcases lp with _ | resp
  · rfl
  · rcases h : resp.routes[idx]? with _ | info <;> simp [showMap, h]

/-- C5: day-selector visibility.  Full (gated) variant: after updateView
with a present plan, the selector is visible exactly when the view is map
and at least one route has a non-null day.  Reduced (ungated) variant:
the selector is visible exactly when the view is map, unconditionally and
for any lastPlan.  The two variants are distinct behaviours. -/
theorem C5_day_selector (resp : PlanResponse) (lp : Option PlanResponse)
    (st : UIState) :
    (((updateView_gated (some resp) st).1).dayHidden = false ↔
      (st.view = strOf "map" ∧
        resp.routes.any (fun r => r.day.isSome) = true)) ∧
    (((updateView_ungated lp st).1).dayHidden = false ↔
      st.view = strOf "map") := by
  constructor
  · have h : ((updateView_gated (some resp) st).1).dayHidden =
        !(st.view == strOf "map" && resp.routes.any fun r => r.day.isSome) := by
      unfold updateView_gated
      by_cases hv : st.view == strOf "list"
      · simp [hv]
      · simp [hv, showMap_dayHidden]
    rw [h]
    simp
  · have h : ((updateView_ungated lp st).1).dayHidden =
        !(st.view == strOf "map") := by
      unfold updateView_ungated
      rcases lp with _ | resp2
      · rfl
      · by_cases hv : st.view == strOf "list"
        · simp [hv, bne]
        · simp [hv, bne, showMap_dayHidden]
    rw [h]
    simp

/-- C8: list-view rendering equals the spec's reference rendering: one
block per route in route order, heading Day N when a day number is
present (the data model treats a falsy day as unassigned) and the generic
Route label otherwise, the route's places as an ordered list, and a
summary of distance_m / 1000 to one decimal plus the duration in minutes;
the spec's example distance 12345 renders as "12.3", and the spec's
two-route example renders to the expected two blocks. -/
theorem C8_render_list (resp : PlanResponse) :
    renderList resp = renderListSpecRef resp.routes ∧
    kmStr 12345 = strOf "12.3" ∧
    renderList respEx =
      [{ heading := strOf "Day 1", items := [strOf "A", strOf "B"]
         summary := strOf "12.3 km | 30 min" },
       { heading := strOf "Day 2", items := [strOf "C"]
         summary := strOf "0.5 km | 7 min" }] := by
  refine ⟨?_, by decide, by decide⟩
  have hblock : ∀ info, renderBlock info = blockSpecRef info := by
    intro info
    rcases hd : info.day with _ | n
    · simp [renderBlock, blockSpecRef, dayLabel, dayTruthy, headingSpecRef, hd]
    · by_cases hn : n = 0 <;>
        simp [renderBlock, blockSpecRef, dayLabel, dayTruthy, headingSpecRef,
          hd, hn]
  have hmap : ∀ L : List RouteInfo, L.map renderBlock = renderListSpecRef L := by
    intro L
    induction L with
    | nil => rfl
    | cons a t ih => simp [renderListSpecRef, ih, hblock]
  exact hmap resp.routes

/-- C9: showMap dereferences lastPlan.routes[idx].map_path without a
guard: when the index does not name a route (in particular with an empty
routes list) it throws, and a throw-free run forces a valid index; with
empty routes and map view the full-variant updateView fails rather than
no-oping. -/
theorem C9_showMap_unguarded (resp : PlanResponse) (st : UIState)
    (idx : Nat) :
    (resp.routes[idx]? = none → showMap (some resp) idx st = (st, true)) ∧
    (resp.routes = [] → st.view = strOf "map" →
      (updateView_gated (some resp) st).2 = true) ∧
    ((showMap (some resp) idx st).2 = false →
      (resp.routes[idx]?).isSome = true) := by
  refine ⟨?_, ?_, ?_⟩
  · intro h
    simp [showMap, h]
  · intro h hv
    simp [updateView_gated, showMap, h, hv,
      (by decide : ((strOf "map" == strOf "list") = false))]
  · intro h
    rcases ho : resp.routes[idx]? with _ | r
    · simp [showMap, ho] at h
    · simp

/-- Witness for C9 at a concrete input: an empty-routes plan in map view
throws in showMap and in the full-variant updateView. -/
theorem C9_witness :
    showMap (some ⟨[]⟩) 0 uiM = (uiM, true) ∧
    (updateView_gated (some ⟨[]⟩) uiM).2 = true :=
  ⟨(C9_showMap_unguarded ⟨[]⟩ uiM 0).1 rfl,
    (C9_showMap_unguarded ⟨[]⟩ uiM 0).2.1 rfl rfl⟩

theorem setValueStep_param (params : KV) (id cur : Str) (acc : KV × Bool)
    (v : Str) (h : lookupKV params id = some v) :
    setValueStep params id cur acc = (v, setKV acc.1 id v, true) := by
  simp [setValueStep, h]

theorem share_lookup (params0 : KV) (f : FormState) :
    lookupKV (share params0 f) (strOf "home") = some (trim f.home) ∧
    lookupKV (share params0 f) (strOf "places") = some f.places ∧
    lookupKV (share params0 f) (strOf "mandatory") = some f.mandatory ∧
    lookupKV (share params0 f) (strOf "altAddresses") = some f.altAddresses ∧
    lookupKV (share params0 f) (strOf "mode") = some f.mode ∧
    lookupKV (share params0 f) (strOf "view") = some f.view := by
  unfold share
  refine ⟨?_, ?_, ?_, ?_, ?_, ?_⟩
  · rw [lookup_setKV_ne _ _ _ _ (by decide), lookup_setKV_ne _ _ _ _ (by decide),
      lookup_setKV_ne _ _ _ _ (by decide), lookup_setKV_ne _ _ _ _ (by decide),
      lookup_setKV_ne _ _ _ _ (by decide), lookup_setKV_eq]
  · rw [lookup_setKV_ne _ _ _ _ (by decide), lookup_setKV_ne _ _ _ _ (by decide),
      lookup_setKV_ne _ _ _ _ (by decide), lookup_setKV_ne _ _ _ _ (by decide),
      lookup_setKV_eq]
  · rw [lookup_setKV_ne _ _ _ _ (by decide), lookup_setKV_ne _ _ _ _ (by decide),
      lookup_setKV_ne _ _ _ _ (by decide), lookup_setKV_eq]
  · rw [lookup_setKV_ne _ _ _ _ (by decide), lookup_setKV_ne _ _ _ _ (by decide),
      lookup_setKV_eq]
  · rw [lookup_setKV_ne _ _ _ _ (by decide), lookup_setKV_eq]
  · rw [lookup_setKV_eq]

/-- C2 counterexample: a home field with a trailing space ("X ") is
trimmed by share, so loading the client with the Share URL restores
home = "X", not the original value: the round trip is not the identity on
all six fields. -/
theorem C2_counterexample :
    (restoreForm (share [] fEx) [] fDef).1.home ≠ fEx.home ∧
    (restoreForm (share [] fEx) [] fDef).1.home = strOf "X" := by
  decide

/-- C2 (amended): building a Share URL from the live field values and
loading the client with it reproduces places, mandatory, altAddresses,
mode and view identically and home up to trimming (share stores the
trimmed home), regardless of the prior URL parameters, storage content
and markup defaults; all six restored values are persisted to durable
storage, which afterwards holds exactly the shared values. -/
theorem C2_roundtrip_amended (params0 storage : KV) (f f0 : FormState) :
    (restoreForm (share params0 f) storage f0).1 =
      { home := trim f.home, places := f.places, mandatory := f.mandatory
        altAddresses := f.altAddresses, mode := f.mode, view := f.view } ∧
    (restoreForm (share params0 f) storage f0).2.1 = share storage f ∧
    lookupKV (restoreForm (share params0 f) storage f0).2.1 (strOf "home") =
      some (trim f.home) ∧
    lookupKV (restoreForm (share params0 f) storage f0).2.1 (strOf "places") =
      some f.places ∧
    lookupKV (restoreForm (share params0 f) storage f0).2.1 (strOf "mandatory") =
      some f.mandatory ∧
    lookupKV (restoreForm (share params0 f) storage f0).2.1
      (strOf "altAddresses") = some f.altAddresses ∧
    lookupKV (restoreForm (share params0 f) storage f0).2.1 (strOf "mode") =
      some f.mode ∧
    lookupKV (restoreForm (share params0 f) storage f0).2.1 (strOf "view") =
      some f.view ∧
    (restoreForm (share params0 f) storage f0).2.2 = true := by
  obtain ⟨h1, h2, h3, h4, h5, h6⟩ := share_lookup params0 f
  have e : restoreForm (share params0 f) storage f0 =
      ({ home := trim f.home, places := f.places, mandatory := f.mandatory
         altAddresses := f.altAddresses, mode := f.mode, view := f.view },
        share storage f, true) := by
    simp only [restoreForm, setValueStep_param _ _ _ _ _ h1,
      setValueStep_param _ _ _ _ _ h2, setValueStep_param _ _ _ _ _ h3,
      setValueStep_param _ _ _ _ _ h4, setValueStep_param _ _ _ _ _ h5,
      setValueStep_param _ _ _ _ _ h6]
    rfl
  rw [e]
  exact ⟨rfl, rfl, (share_lookup storage f).1, (share_lookup storage f).2.1,
    (share_lookup storage f).2.2.1, (share_lookup storage f).2.2.2.1,
    (share_lookup storage f).2.2.2.2.1, (share_lookup storage f).2.2.2.2.2,
    rfl⟩

theorem setValueStep_fst (params : KV) (id cur : Str) (acc : KV × Bool) :
    (setValueStep params id cur acc).1 =
      resolveFieldSpec params acc.1 id cur := by
  rcases h : lookupKV params id with _ | v
  · rcases h2 : lookupKV acc.1 id with _ | w <;>
      simp [setValueStep, resolveFieldSpec, h, h2]
  · simp [setValueStep, resolveFieldSpec, h]

theorem lookup_setValueStep_ne (params : KV) (id cur : Str) (acc : KV × Bool)
    (k : Str) (hk : id ≠ k) :
    lookupKV (setValueStep params id cur acc).2.1 k = lookupKV acc.1 k := by
  rcases h : lookupKV params id with _ | v
  · rcases h2 : lookupKV acc.1 id with _ | w <;> simp [setValueStep, h, h2]
  · simp [setValueStep, h, lookup_setKV_ne _ _ _ _ hk]

theorem lookup_setValueStep_self (params : KV) (id cur : Str)
    (acc : KV × Bool) :
    lookupKV (setValueStep params id cur acc).2.1 id =
      (match lookupKV params id with
        | some v => some v
        | none => lookupKV acc.1 id) := by
  rcases h : lookupKV params id with _ | v
  · rcases h2 : lookupKV acc.1 id with _ | w <;> simp [setValueStep, h, h2]
  · simp [setValueStep, h, lookup_setKV_eq]

theorem resolveFieldSpec_congr (params : KV) (id cur : Str) {s s' : KV}
    (h : lookupKV s id = lookupKV s' id) :
    resolveFieldSpec params s id cur = resolveFieldSpec params s' id cur := by
  rcases hp : lookupKV params id with _ | v <;>
    simp [resolveFieldSpec, hp, h]

/-- C6: on initialization, each of the six tracked fields resolves per
the spec's precedence rule against the original stores - a present URL
parameter wins, else a stored value, else the markup default - and the
final durable storage holds the URL value for a field whose parameter was
present and is otherwise unchanged at that key. -/
theorem C6_precedence (params storage : KV) (f0 : FormState) :
    (restoreForm params storage f0).1.home =
      resolveFieldSpec params storage (strOf "home") f0.home ∧
    (restoreForm params storage f0).1.places =
      resolveFieldSpec params storage (strOf "places") f0.places ∧
    (restoreForm params storage f0).1.mandatory =
      resolveFieldSpec params storage (strOf "mandatory") f0.mandatory ∧
    (restoreForm params storage f0).1.altAddresses =
      resolveFieldSpec params storage (strOf "altAddresses") f0.altAddresses ∧
    (restoreForm params storage f0).1.mode =
      resolveFieldSpec params storage (strOf "mode") f0.mode ∧
    (restoreForm params storage f0).1.view =
      resolveFieldSpec params storage (strOf "view") f0.view ∧
    lookupKV (restoreForm params storage f0).2.1 (strOf "home") =
      (match lookupKV params (strOf "home") with
        | some v => some v
        | none => lookupKV storage (strOf "home")) ∧
    lookupKV (restoreForm params storage f0).2.1 (strOf "places") =
      (match lookupKV params (strOf "places") with
        | some v => some v
        | none => lookupKV storage (strOf "places")) ∧
    lookupKV (restoreForm params storage f0).2.1 (strOf "mandatory") =
      (match lookupKV params (strOf "mandatory") with
        | some v => some v
        | none => lookupKV storage (strOf "mandatory")) ∧
    lookupKV (restoreForm params storage f0).2.1 (strOf "altAddresses") =
      (match lookupKV params (strOf "altAddresses") with
        | some v => some v
        | none => lookupKV storage (strOf "altAddresses")) ∧
    lookupKV (restoreForm params storage f0).2.1 (strOf "mode") =
      (match lookupKV params (strOf "mode") with
        | some v => some v
        | none => lookupKV storage (strOf "mode")) ∧
    lookupKV (restoreForm params storage f0).2.1 (strOf "view") =
      (match lookupKV params (strOf "view") with
        | some v => some v
        | none => lookupKV storage (strOf "view")) := by
  simp only [restoreForm]
  refine ⟨?_, ?_, ?_, ?_, ?_, ?_, ?_, ?_, ?_, ?_, ?_, ?_⟩
  · rw [setValueStep_fst]
  · rw [setValueStep_fst]
    exact resolveFieldSpec_congr _ _ _ (by
      rw [lookup_setValueStep_ne _ (strOf "home") _ _ (strOf "places")
        (by decide)])
  · rw [setValueStep_fst]
    exact resolveFieldSpec_congr _ _ _ (by
      rw [lookup_setValueStep_ne _ (strOf "places") _ _ (strOf "mandatory")
          (by decide),
        lookup_setValueStep_ne _ (strOf "home") _ _ (strOf "mandatory")
          (by decide)])
  · rw [setValueStep_fst]
    exact resolveFieldSpec_congr _ _ _ (by
      rw [lookup_setValueStep_ne _ (strOf "mandatory") _ _
          (strOf "altAddresses") (by decide),
        lookup_setValueStep_ne _ (strOf "places") _ _ (strOf "altAddresses")
          (by decide),
        lookup_setValueStep_ne _ (strOf "home") _ _ (strOf "altAddresses")
          (by decide)])
  · rw [setValueStep_fst]
    exact resolveFieldSpec_congr _ _ _ (by
      rw [lookup_setValueStep_ne _ (strOf "altAddresses") _ _ (strOf "mode")
          (by decide),
        lookup_setValueStep_ne _ (strOf "mandatory") _ _ (strOf "mode")
          (by decide),
        lookup_setValueStep_ne _ (strOf "places") _ _ (strOf "mode")
          (by decide),
        lookup_setValueStep_ne _ (strOf "home") _ _ (strOf "mode")
          (by decide)])
  · rw [setValueStep_fst]
    exact resolveFieldSpec_congr _ _ _ (by
      rw [lookup_setValueStep_ne _ (strOf "mode") _ _ (strOf "view")
          (by decide),
        lookup_setValueStep_ne _ (strOf "altAddresses") _ _ (strOf "view")
          (by decide),
        lookup_setValueStep_ne _ (strOf "mandatory") _ _ (strOf "view")
          (by decide),
        lookup_setValueStep_ne _ (strOf "places") _ _ (strOf "view")
          (by decide),
        lookup_setValueStep_ne _ (strOf "home") _ _ (strOf "view")
          (by decide)])
  · rw [lookup_setValueStep_ne _ (strOf "view") _ _ (strOf "home")
        (by decide),
      lookup_setValueStep_ne _ (strOf "mode") _ _ (strOf "home") (by decide),
      lookup_setValueStep_ne _ (strOf "altAddresses") _ _ (strOf "home")
        (by decide),
      lookup_setValueStep_ne _ (strOf "mandatory") _ _ (strOf "home")
        (by decide),
      lookup_setValueStep_ne _ (strOf "places") _ _ (strOf "home")
        (by decide),
      lookup_setValueStep_self]
  · rw [lookup_setValueStep_ne _ (strOf "view") _ _ (strOf "places")
        (by decide),
      lookup_setValueStep_ne _ (strOf "mode") _ _ (strOf "places")
        (by decide),
      lookup_setValueStep_ne _ (strOf "altAddresses") _ _ (strOf "places")
        (by decide),
      lookup_setValueStep_ne _ (strOf "mandatory") _ _ (strOf "places")
        (by decide),
      lookup_setValueStep_self]
    rcases h : lookupKV params (strOf "places") with _ | v
    · simp [h, lookup_setValueStep_ne _ (strOf "home") _ _ (strOf "places")
        (by decide)]
    · simp [h]
  · rw [lookup_setValueStep_ne _ (strOf "view") _ _ (strOf "mandatory")
        (by decide),
      lookup_setValueStep_ne _ (strOf "mode") _ _ (strOf "mandatory")
        (by decide),
      lookup_setValueStep_ne _ (strOf "altAddresses") _ _ (strOf "mandatory")
        (by decide),
      lookup_setValueStep_self]
    rcases h : lookupKV params (strOf "mandatory") with _ | v
    · simp [h,
        lookup_setValueStep_ne _ (strOf "places") _ _ (strOf "mandatory")
          (by decide),
        lookup_setValueStep_ne _ (strOf "home") _ _ (strOf "mandatory")
          (by decide)]
    · simp [h]
  · rw [lookup_setValueStep_ne _ (strOf "view") _ _ (strOf "altAddresses")
        (by decide),
      lookup_setValueStep_ne _ (strOf "mode") _ _ (strOf "altAddresses")
        (by decide),
      lookup_setValueStep_self]
    rcases h : lookupKV params (strOf "altAddresses") with _ | v
    · simp [h,
        lookup_setValueStep_ne _ (strOf "mandatory") _ _ (strOf "altAddresses")
          (by decide),
        lookup_setValueStep_ne _ (strOf "places") _ _ (strOf "altAddresses")
          (by decide),
        lookup_setValueStep_ne _ (strOf "home") _ _ (strOf "altAddresses")
          (by decide)]
    · simp [h]
  · rw [lookup_setValueStep_ne _ (strOf "view") _ _ (strOf "mode")
        (by decide),
      lookup_setValueStep_self]
    rcases h : lookupKV params (strOf "mode") with _ | v
    · simp [h,
        lookup_setValueStep_ne _ (strOf "altAddresses") _ _ (strOf "mode")
          (by decide),
        lookup_setValueStep_ne _ (strOf "mandatory") _ _ (strOf "mode")
          (by decide),
        lookup_setValueStep_ne _ (strOf "places") _ _ (strOf "mode")
          (by decide),
        lookup_setValueStep_ne _ (strOf "home") _ _ (strOf "mode")
          (by decide)]
    · simp [h]
  · rw [lookup_setValueStep_self]
    rcases h : lookupKV params (strOf "view") with _ | v
    · simp [h,
        lookup_setValueStep_ne _ (strOf "mode") _ _ (strOf "view")
          (by decide),
        lookup_setValueStep_ne _ (strOf "altAddresses") _ _ (strOf "view")
          (by decide),
        lookup_setValueStep_ne _ (strOf "mandatory") _ _ (strOf "view")
          (by decide),
        lookup_setValueStep_ne _ (strOf "places") _ _ (strOf "view")
          (by decide),
        lookup_setValueStep_ne _ (strOf "home") _ _ (strOf "view")
          (by decide)]
    · simp [h]

theorem len_dropWhile_le (p : Char → Bool) (l : Str) :
    (l.dropWhile p).length ≤ l.length := by
  induction l with
  | nil => simp
  | cons a t ih =>
    rw [List.dropWhile_cons]
    by_cases h : p a
    · rw [if_pos h]
      exact Nat.le_succ_of_le ih
    · rw [if_neg h]

theorem dropWhile_head_false (p : Char → Bool) :
    ∀ {l : Str} {a : Char} {t : Str}, l.dropWhile p = a :: t → p a = false := by
  intro l
  induction l with
  | nil =>
    intro a t h
    simp at h
  | cons b l2 ih =>
    intro a t h
    rw [List.dropWhile_cons] at h
    by_cases hb : p b
    · rw [if_pos hb] at h
      exact ih h
    · rw [if_neg hb] at h
      cases h
      exact Bool.eq_false_iff.mpr hb

theorem dropWhile_nil_all (p : Char → Bool) :
    ∀ {l : Str}, l.dropWhile p = [] → ∀ x ∈ l, p x = true := by
  intro l
  induction l with
  | nil =>
    intro _ x hx
    cases hx
  | cons b l2 ih =>
    intro h x hx
    rw [List.dropWhile_cons] at h
    by_cases hb : p b
    · rw [if_pos hb] at h
      rcases List.mem_cons.mp hx with rfl | hx2
      · exact hb
      · exact ih h x hx2
    · rw [if_neg hb] at h
      cases h

theorem dropWhile_cons_false (p : Char → Bool) (a : Char) (t : Str)
    (h : p a = false) : (a :: t).dropWhile p = a :: t := by
  rw [List.dropWhile_cons, if_neg (by simp [h])]

theorem dropWhile_dropWhile (p : Char → Bool) (l : Str) :
    (l.dropWhile p).dropWhile p = l.dropWhile p := by
  rcases h : l.dropWhile p with _ | ⟨a, t⟩
  · rfl
  · exact dropWhile_cons_false p a t (dropWhile_head_false p h)

theorem trim_trim (s : Str) : trim (trim s) = trim s := by
  have hv : ((s.dropWhile isWs).reverse.dropWhile isWs).dropWhile isWs =
      (s.dropWhile isWs).reverse.dropWhile isWs :=
    dropWhile_dropWhile isWs (s.dropWhile isWs).reverse
  have step1 :
      ((s.dropWhile isWs).reverse.dropWhile isWs).reverse.dropWhile isWs =
        ((s.dropWhile isWs).reverse.dropWhile isWs).reverse := by
    rcases hr : ((s.dropWhile isWs).reverse.dropWhile isWs).reverse
      with _ | ⟨a, t⟩
    · rfl
    · refine dropWhile_cons_false isWs a t ?_
      have hdecomp :
          (s.dropWhile isWs).reverse.takeWhile isWs ++
            (s.dropWhile isWs).reverse.dropWhile isWs =
          (s.dropWhile isWs).reverse :=
        List.takeWhile_append_dropWhile isWs (s.dropWhile isWs).reverse
      have hsplit : s.dropWhile isWs =
          ((s.dropWhile isWs).reverse.dropWhile isWs).reverse ++
            ((s.dropWhile isWs).reverse.takeWhile isWs).reverse := by
        have h2 := congrArg List.reverse hdecomp.symm
        rw [List.reverse_reverse, List.reverse_append] at h2
        exact h2
      rw [hr] at hsplit
      exact dropWhile_head_false isWs (by simpa using hsplit)
  unfold trim
  rw [step1, List.reverse_reverse, hv]

theorem trimmed_head_not_ws {a : Char} {t : Str}
    (h : trim (a :: t) = a :: t) : isWs a = false := by
  by_cases ha : isWs a
  · exfalso
    have h1 : ((a :: t).dropWhile isWs).length ≤ t.length := by
      rw [List.dropWhile_cons, if_pos (by simp [ha])]
      exact len_dropWhile_le isWs t
    have h2 : (trim (a :: t)).length ≤ ((a :: t).dropWhile isWs).length := by
      unfold trim
      rw [List.length_reverse]
      exact le_trans (len_dropWhile_le isWs _)
        (le_of_eq (List.length_reverse _))
    rw [h] at h2
    have h3 := le_trans h2 h1
    simp only [List.length_cons] at h3
    omega
  · exact Bool.eq_false_iff.mpr ha

theorem trim_cons_ne_nil {a : Char} (t : Str) (ha : isWs a = false) :
    trim (a :: t) ≠ [] := by
  intro h
  unfold trim at h
  rw [List.reverse_eq_nil_iff] at h
  rw [dropWhile_cons_false isWs a t ha] at h
  have h2 := dropWhile_nil_all isWs h a (by simp)
  rw [ha] at h2
  cases h2

theorem splitOnChar_headI (sep : Char) (l : Str) :
    (splitOnChar sep l).headI = l.takeWhile fun c => !(c == sep) := by
  induction l with
  | nil => rfl
  | cons c cs ih =>
    by_cases h : c = sep
    · subst h
      simp [splitOnChar, List.takeWhile_cons]
    · rcases hr : splitOnChar sep cs with _ | ⟨h2, t2⟩
      · exact absurd hr (splitOnChar_ne_nil sep cs)
      · have ih2 : h2 = cs.takeWhile fun c => !(c == sep) := by
          rw [← ih, hr]
          rfl
        simp [splitOnChar, h, hr, List.takeWhile_cons, ih2]

theorem mem_setKV {β : Type} {p : Str × β} (k : Str) (v : β) :
    ∀ m : List (Str × β), p ∈ setKV m k v → p.1 = k ∨ p ∈ m := by
  intro m
  induction m with
  | nil =>
    intro h
    simp [setKV] at h
    exact Or.inl (by rw [h])
  | cons q rest ih =>
    intro h
    by_cases hq : q.1 = k
    · simp only [setKV, if_pos hq] at h
      rcases List.mem_cons.mp h with rfl | h2
      · exact Or.inl rfl
      · exact Or.inr (List.mem_cons_of_mem q h2)
    · simp only [setKV, if_neg hq] at h
      rcases List.mem_cons.mp h with rfl | h2
      · exact Or.inr (List.mem_cons_self p rest)
      · rcases ih h2 with h3 | h3
        · exact Or.inl h3
        · exact Or.inr (List.mem_cons_of_mem q h3)

theorem survivingLines_mem {raw l : Str} (h : l ∈ survivingLines raw) :
    trim l = l ∧ l ≠ [] := by
  unfold survivingLines at h
  rcases List.mem_filter.mp h with ⟨hmem, hne⟩
  rcases List.mem_map.mp hmem with ⟨l0, _, rfl⟩
  refine ⟨trim_trim l0, ?_⟩
  simpa using hne

theorem altKey_ne_nil {a : Char} {t : Str} (hl : trim (a :: t) = a :: t)
    (ho : ¬((splitOnChar '|' (a :: t)).headI).isEmpty = true) :
    trim ((splitOnChar '|' (a :: t)).headI) ≠ [] := by
  have ha : isWs a = false := trimmed_head_not_ws hl
  have hh := splitOnChar_headI '|' (a :: t)
  rw [List.takeWhile_cons] at hh
  by_cases hq : (!(a == '|')) = true
  · rw [if_pos hq] at hh
    rw [hh]
    exact trim_cons_ne_nil _ ha
  · rw [if_neg hq] at hh
    rw [hh] at ho
    simp at ho

theorem processAltLine_keys {line : Str} (hl : trim line = line)
    (hn : line ≠ []) {m : KV} {p : Str × Str}
    (hp : p ∈ processAltLine m line) :
    p ∈ m ∨ (trim p.1 = p.1 ∧ p.1 ≠ []) := by
  simp only [processAltLine] at hp
  by_cases ho : ((splitOnChar '|' line).headI).isEmpty = true
  · rw [if_pos ho] at hp
    exact Or.inl hp
  · rw [if_neg ho] at hp
    rcases mem_setKV _ _ _ hp with hk | hk
    · refine Or.inr ⟨by rw [hk]; exact trim_trim _, ?_⟩
      rw [hk]
      rcases hline : line with _ | ⟨a, t⟩
      · exact absurd hline hn
      · rw [hline] at hl ho
        exact altKey_ne_nil hl ho
    · exact Or.inl hk

theorem alt_fold_keys :
    ∀ (lines : List Str) (m : KV),
      (∀ l ∈ lines, trim l = l ∧ l ≠ []) →
      (∀ p ∈ m, trim p.1 = p.1 ∧ p.1 ≠ []) →
      ∀ p ∈ lines.foldl processAltLine m, trim p.1 = p.1 ∧ p.1 ≠ [] := by
  intro lines
  induction lines with
  | nil =>
    intro m _ hm p hp
    exact hm p hp
  | cons l rest ih =>
    intro m hlines hm p hp
    rw [List.foldl_cons] at hp
    refine ih _ (fun x hx => hlines x (List.mem_cons_of_mem l hx)) ?_ p hp
    intro q hq
    rcases hlines l (List.mem_cons_self l rest) with ⟨hl, hn⟩
    rcases processAltLine_keys hl hn hq with h | h
    · exact hm q h
    · exact h

/-- C10: key normalization is asymmetric: every key of the alt-address
map is a trimmed non-empty string (the original segment is trimmed before
use as a key), while mandatory-by-day keys are taken verbatim from the
split and not trimmed, so the mandatory lines "1|A" and "1 |A" produce
the two distinct day keys "1" and "1 ". -/
theorem C10_key_asymmetry (raw k : Str)
    (h : ∃ v, (k, v) ∈ parseAltAddresses raw) :
    (trim k = k ∧ k ≠ []) ∧
    parseMandatory (strOf "1|A\n1 |A") =
      [(strOf "1", [strOf "A"]), (strOf "1 ", [strOf "A"])] ∧
    strOf "1" ≠ strOf "1 " := by
  obtain ⟨v, hv⟩ := h
  refine ⟨?_, by decide, by decide⟩
  exact alt_fold_keys (survivingLines raw) []
    (fun l hl => survivingLines_mem hl) (by intro p hp; cases hp) (k, v) hv

/-- Witness for C10 at a concrete input: the alt-address line "x|y"
produces the key "x", which is trimmed and non-empty. -/
theorem C10_witness :
    (trim (strOf "x") = strOf "x" ∧ strOf "x" ≠ []) ∧
    parseMandatory (strOf "1|A\n1 |A") =
      [(strOf "1", [strOf "A"]), (strOf "1 ", [strOf "A"])] ∧
    strOf "1" ≠ strOf "1 " :=
  C10_key_asymmetry (strOf "x|y") (strOf "x") ⟨strOf "y", by decide⟩

end Travecto
